import Mathlib

/-!
# Verification of the ccnping client and server session logic

Shallow embedding of the session-level logic of `src/ccnping.c` (the probe
session manager: emission, pending-table correlation, statistics, run loop)
and `src/ccnpingserver.c` (the responder: name validation, response counting).

Modelling conventions:
* C `int` / `long int` counters are modelled as `Int` (overflow out of scope
  for the quantities the claims are about).
* C `double` quantities (RTT, statistics aggregates) are modelled as `ℚ`;
  the C code's RTT formula `(Δsec)*1000 + (Δusec)/1000` is exactly
  `(Δmicroseconds)/1000` over the rationals, so timestamps are modelled as a
  single microsecond count (`Int`).
* The floating-point library calls `sqrt` (libm) and `printf` `%.Nf`
  rendering are external to the program's logic and are modelled as function
  parameters.
* The `hashtb` keyed by the probe's raw name bytes is modelled as an
  association list keyed by the name's distinguishing trailing component
  (the decimal rendering of the probe number; the rest of the name is fixed
  for the whole run).  `hashtb_seek` asserting `HT_OLD_ENTRY` (entry must
  exist) is modelled by returning `none` on a missing key, i.e. the fatal
  assertion path.
-/

namespace Ccnping

/-- One pending-table entry: `struct ccn_ping_entry` of `src/ccnping.c`
(`number`, `send_time`).  `sendTime` is in microseconds. -/
structure PingEntry where
  number : Int
  sendTime : Int
deriving DecidableEq, Repr

/-- The mutable client fields of `struct ccn_ping_client` that the session
logic reads and writes: `sent`, `received`, `number` (the sequence counter,
negative means random numbering) and the pending table `ccn_ping_table`. -/
structure ClientState where
  sent : Int
  received : Int
  number : Int
  pending : List (String × PingEntry)
deriving DecidableEq, Repr

/-- The process-wide `struct ccn_ping_statistics sta` of `src/ccnping.c`
(without the fixed `prefix`/`start` fields, which the session logic never
mutates). -/
structure Stats where
  sent : Int
  received : Int
  min : ℚ
  max : ℚ
  tsum : ℚ
  tsum2 : ℚ
deriving DecidableEq, Repr

/-- Log lines emitted by the client, at the event level (the run's name
prefix, fixed for the whole run, is implicit). -/
inductive LogEvent where
  | contentLog (number : Int) (rtt : ℚ)
  | timeoutLog (number : Int)
  | sendFailLog (number : Int)
deriving DecidableEq, Repr

/-- Initial client state built in `main` (`sent = 0`, `received = 0`,
`number` from `-n` or `-1` for random, empty table). -/
def init_client (startNumber : Int) : ClientState :=
  { sent := 0, received := 0, number := startNumber, pending := [] }

/-- Initial statistics: `memset(&sta, 0, sizeof(sta))` followed by
`sta.min = INT_MAX` (`src/ccnping.c` lines 357-359). -/
def init_stats : Stats :=
  { sent := 0, received := 0, min := 2147483647, max := 0, tsum := 0, tsum2 := 0 }

/-- Removal of the entry with the given key: `hashtb_delete` reached through
`hashtb_seek` (which finds the first, and in a hash table unique, entry for
the key). -/
def tableRemove (key : String) : List (String × PingEntry) → List (String × PingEntry)
  | [] => []
  | kv :: rest => if kv.1 = key then rest else kv :: tableRemove key rest

/-- One scheduled probe emission: `do_ping` of `src/ccnping.c` (lines
261-299).  `now` is the current time in microseconds, `rand` the value
`random()` would return, `sendRes` the result of `ccn_express_interest`.
Returns the new client state, new statistics, the log lines emitted, and the
scheduler reschedule value in microseconds (`0` = do not reschedule). -/
def do_ping (total : Int) (interval : ℚ) (now rand sendRes : Int)
    (c : ClientState) (sta : Stats) : ClientState × Stats × List LogEvent × Int :=
  if 0 ≤ total ∧ total ≤ c.sent then (c, sta, [], 0)
  else
    let rnum := if c.number < 0 then rand else c.number
    let number' := if c.number < 0 then c.number else c.number + 1
    let key := toString rnum
    let c' : ClientState :=
      { sent := c.sent + 1, received := c.received, number := number',
        pending := (key, ⟨rnum, now⟩) :: c.pending }
    let sta' : Stats := { sta with sent := sta.sent + 1 }
    let logs := if sendRes < 0 then [LogEvent.sendFailLog rnum] else []
    (c', sta', logs, ⌊interval * 1000000⌋)

/-- The round-trip time in milliseconds computed by `incoming_content`
(`src/ccnping.c` lines 211-212): over the rationals,
`(Δsec)*1000 + (Δusec)/1000` equals `(Δmicroseconds)/1000`. -/
def rttMs (now sendTime : Int) : ℚ :=
  (now - sendTime : Int) / 1000

/-- The `CCN_UPCALL_CONTENT` branch of `incoming_content` (`src/ccnping.c`
lines 204-226): bump the received counters, look up the pending entry for
the probe's name (the `assert(res == HT_OLD_ENTRY)` contract is the `none`
case), fold the RTT into the statistics, log, and remove the entry.  `key`
is the trailing name component, `now` the arrival time in microseconds. -/
def handle_content (key : String) (now : Int) (c : ClientState) (sta : Stats) :
    Option (ClientState × Stats × List LogEvent) :=
  match c.pending.lookup key with
  | none => none
  | some entry =>
    let rtt : ℚ := rttMs now entry.sendTime
    let sta' : Stats :=
      { sent := sta.sent, received := sta.received + 1,
        min := if rtt < sta.min then rtt else sta.min,
        max := if rtt > sta.max then rtt else sta.max,
        tsum := sta.tsum + rtt,
        tsum2 := sta.tsum2 + rtt * rtt }
    some ({ c with received := c.received + 1, pending := tableRemove key c.pending },
      sta', [LogEvent.contentLog entry.number rtt])

/-- The `CCN_UPCALL_INTEREST_TIMED_OUT` branch of `incoming_content`
(`src/ccnping.c` lines 227-236): look up the pending entry (same existence
contract), log the timeout, remove the entry.  Neither the statistics nor
the client counters are touched. -/
def handle_timeout (key : String) (c : ClientState) (sta : Stats) :
    Option (ClientState × Stats × List LogEvent) :=
  match c.pending.lookup key with
  | none => none
  | some entry =>
    some ({ c with pending := tableRemove key c.pending },
      sta, [LogEvent.timeoutLog entry.number])

/-- The guard of the client's run loop (`src/ccnping.c` lines 454-455),
under a healthy transport (`res >= 0`):
`client.total <= 0 || client.sent < client.total || hashtb_n(...) > 0`. -/
def loop_continues (total sent : Int) (pendingCount : Nat) : Bool :=
  decide (total ≤ 0) || decide (sent < total) || decide (0 < pendingCount)

/-- The guard under which the loop body still drives the emission scheduler
(`src/ccnping.c` line 457): `client.total <= 0 || client.sent < client.total`. -/
def schedule_runs (total sent : Int) : Bool :=
  decide (total ≤ 0) || decide (sent < total)

/-- Modelled from the spec: the claimed termination condition, "(a)
`totalLimit` is unset or `sentCount >= totalLimit`, AND (b) `pendingTable`
is empty" (unset = no positive `-c` value, i.e. `total ≤ 0`). -/
def spec_terminated (total sent : Int) (pendingCount : Nat) : Prop :=
  (total ≤ 0 ∨ total ≤ sent) ∧ pendingCount = 0

/-- The states reachable in one client run: the initial state followed by
any interleaving of scheduled emissions (`do_ping`), content deliveries and
timeouts (`incoming_content`), each with arbitrary times, random draws and
transport results. -/
inductive Reachable (total : Int) (interval : ℚ) (n0 : Int) :
    ClientState → Stats → Prop where
  | init : Reachable total interval n0 (init_client n0) init_stats
  | emit {c sta} (now rand sendRes : Int) :
      Reachable total interval n0 c sta →
      Reachable total interval n0
        (do_ping total interval now rand sendRes c sta).1
        (do_ping total interval now rand sendRes c sta).2.1
  | content {c sta c' sta' logs} (key : String) (now : Int) :
      Reachable total interval n0 c sta →
      handle_content key now c sta = some (c', sta', logs) →
      Reachable total interval n0 c' sta'
  | timeout {c sta c' sta' logs} (key : String) :
      Reachable total interval n0 c sta →
      handle_timeout key c sta = some (c', sta', logs) →
      Reachable total interval n0 c' sta'

/-- The strengthened run invariant relating the client counters, the
process-wide statistics and the pending table: the two sent counters agree,
the two received counters agree, and every probe is either resolved
(received) or still pending, so `received + |pending| ≤ sent`. -/
def sessionInv (c : ClientState) (sta : Stats) : Prop :=
  sta.sent = c.sent ∧ sta.received = c.received ∧
    c.received + (c.pending.length : Int) ≤ c.sent

/-- A run of `N` consecutive scheduled emissions (`do_ping` calls) with no
intervening responses, as driven by the scheduler; sequential-numbering runs
ignore `random()`, so the random draw and the transport result are fixed at
`0`, and emission times are irrelevant to the numbers used. -/
def run_pings (total : Int) (interval : ℚ) : Nat → ClientState → Stats → ClientState × Stats
  | 0, c, sta => (c, sta)
  | Nat.succ k, c, sta =>
    run_pings total interval k (do_ping total interval 0 0 0 c sta).1
      (do_ping total interval 0 0 0 c sta).2.1

/-! ## Final statistics report (`print_statistics`, `src/ccnping.c` lines 301-321) -/

/-- One line of the final report, structurally: the header, the
transmitted/loss line (printed only when `sta.sent > 0`), and the rtt
summary line (printed only when `sta.received > 0`). -/
inductive ReportLine where
  | header (pfx : String)
  | txStats (sent received : Int) (loss : ℚ) (timeMs : Int)
  | rttStats (minv avg maxv mdev : ℚ)
deriving DecidableEq, Repr

/-- Holds exactly on the transmitted/loss line. -/
def ReportLine.isTx : ReportLine → Bool
  | .txStats _ _ _ _ => true
  | _ => false

/-- Holds exactly on the rtt summary line. -/
def ReportLine.isRtt : ReportLine → Bool
  | .rttStats _ _ _ _ => true
  | _ => false

/-- The report printer `print_statistics` of `src/ccnping.c` (lines
301-321), as the list of lines it prints.  `sqrtFn` models the libm `sqrt` on doubles, `timeMs` the
elapsed time `now - sta.start` already converted to (truncated) whole
milliseconds as the code's `int time` does. -/
def print_statistics (sqrtFn : ℚ → ℚ) (sta : Stats) (pfx : String) (timeMs : Int) :
    List ReportLine :=
  ReportLine.header pfx ::
    ((if 0 < sta.sent then
        [ReportLine.txStats sta.sent sta.received
          ((sta.sent - sta.received : Int) * 100 / (sta.sent : ℚ)) timeMs]
      else []) ++
     (if 0 < sta.received then
        [ReportLine.rttStats sta.min (sta.tsum / (sta.received : ℚ)) sta.max
          (sqrtFn (sta.tsum2 / (sta.received : ℚ) -
            (sta.tsum / (sta.received : ℚ)) * (sta.tsum / (sta.received : ℚ))))]
      else []))

/-- The printf templates of `print_statistics`, rendered to text.  `fmt p q`
models printf fixed-point rendering `%.pf` of the double `q`; `toString` on
`Int` models `%d` / `%ld`. -/
def renderLine (fmt : Nat → ℚ → String) : ReportLine → String
  | .header pfx => "--- " ++ pfx ++ " ccnping statistics ---"
  | .txStats sent received loss timeMs =>
      toString sent ++ " Interests transmitted, " ++ toString received ++
        " Data received, " ++ fmt 1 loss ++ "% packet loss, time " ++
        toString timeMs ++ " ms"
  | .rttStats minv avg maxv mdev =>
      "rtt min/avg/max/mdev = " ++ fmt 3 minv ++ "/" ++ fmt 3 avg ++ "/" ++
        fmt 3 maxv ++ "/" ++ fmt 3 mdev ++ " ms"

/-- Modelled from the spec: the claimed header template
`--- <prefix> ping statistics ---`. -/
def spec_header_line (pfx : String) : String :=
  "--- " ++ pfx ++ " ping statistics ---"

/-- Modelled from the spec: the claimed second line template
`<sent> Interests transmitted, <received> Data received, <loss>% packet
loss, time <elapsed> ms`. -/
def spec_tx_line (fmt : Nat → ℚ → String) (sent received : Int) (loss : ℚ)
    (timeMs : Int) : String :=
  toString sent ++ " Interests transmitted, " ++ toString received ++
    " Data received, " ++ fmt 1 loss ++ "% packet loss, time " ++
    toString timeMs ++ " ms"

end Ccnping

namespace Ccnpingserver

/-- Whitespace in the C locale (`isspace`), as skipped by `strtol`. -/
def isCSpace (c : Char) : Bool :=
  c = ' ' || c = '\t' || c = '\n' || c = '\x0b' || c = '\x0c' || c = '\r'

/-- What remains of a string after `strtol`'s leading-whitespace skip and
optional single `+`/`-` sign: the part `strtol` reads its digit run from. -/
def strtolTail (s : List Char) : List Char :=
  match s.dropWhile isCSpace with
  | [] => []
  | ch :: rest => if ch = '+' || ch = '-' then rest else ch :: rest

/-- Models the C fragment of `ping_interest_valid` (`src/ccnpingserver.c`
lines 107-109): `strtol(s, &end, 10); *end == '\0'` on the NUL-terminated
trailing component `s`, i.e. whether `strtol`'s end pointer lands on the
terminator.  `strtol` consumes a digit run after whitespace and sign; if no
digits are consumed at all, the end pointer is reset to the very start of
the string. -/
def strtolConsumesAll (s : List Char) : Bool :=
  if ((strtolTail s).takeWhile Char.isDigit).isEmpty then s.isEmpty
  else ((strtolTail s).dropWhile Char.isDigit).isEmpty

/-- The validator `ping_interest_valid` of `src/ccnpingserver.c` (lines 94-113):
the request is valid iff its name has exactly one component more than the
server's prefix and `strtol` applied to the trailing component stops on the
string terminator.  `pfxComps` is `ccn_name_split`'s component count for the
server prefix, `reqComps` is `pi->prefix_comps` for the request. -/
def ping_interest_valid (pfxComps reqComps : Nat) (lastComp : List Char) : Bool :=
  if reqComps = pfxComps + 1 then strtolConsumesAll lastComp else false

/-- Modelled from the spec: the trailing component "parses entirely as an
integer (no trailing non-numeric characters after the numeric prefix)" —
after `strtol`'s leading-whitespace skip and optional sign, a nonempty run
of digits reaching the end of the component. -/
def parsesEntirelyAsInteger (s : List Char) : Bool :=
  !(strtolTail s).isEmpty && (strtolTail s).all Char.isDigit

/-- The upcall results the `CCN_UPCALL_INTEREST` branch of
`incoming_interest` can return. -/
inductive UpcallRes where
  | resultOk
  | interestConsumed
deriving DecidableEq, Repr

/-- The `CCN_UPCALL_INTEREST` branch of `incoming_interest`
(`src/ccnpingserver.c` lines 150-166): on a valid request, build and send
the response (`putRes` is `ccn_put`'s result), increment `server->count`,
and return `CCN_UPCALL_RESULT_INTEREST_CONSUMED` only when the send
succeeded; otherwise fall through to `CCN_UPCALL_RESULT_OK`.  Returns the
new `server->count` and the upcall result. -/
def incoming_interest (count : Int) (pfxComps reqComps : Nat)
    (lastComp : List Char) (putRes : Int) : Int × UpcallRes :=
  if ping_interest_valid pfxComps reqComps lastComp then
    if 0 ≤ putRes then (count + 1, UpcallRes.interestConsumed)
    else (count + 1, UpcallRes.resultOk)
  else (count, UpcallRes.resultOk)

end Ccnpingserver

open Ccnping Ccnpingserver

/-! ## Helper lemmas -/

namespace Ccnping

theorem tableRemove_length {key : String} {t : List (String × PingEntry)}
    {e : PingEntry} (h : t.lookup key = some e) :
    (tableRemove key t).length + 1 = t.length := by
  induction t with
  | nil => simp at h
  | cons kv rest ih =>
    obtain ⟨k, v⟩ := kv
    by_cases hk : key = k
    · simp [tableRemove, hk]
    · rw [List.lookup_cons] at h
      rw [beq_false_of_ne hk] at h
      simp only [tableRemove, List.length_cons]
      rw [if_neg (fun hh => hk hh.symm)]
      simp [ih h]

theorem lookup_eq_none_of_not_mem {key : String} {t : List (String × PingEntry)}
    (h : key ∉ t.map Prod.fst) : t.lookup key = none := by
  induction t with
  | nil => rfl
  | cons kv rest ih =>
    obtain ⟨k, v⟩ := kv
    simp only [List.map_cons, List.mem_cons] at h
    push_neg at h
    rw [List.lookup_cons, beq_false_of_ne h.1]
    exact ih h.2

theorem tableRemove_lookup_none {key : String} {t : List (String × PingEntry)}
    (h : (t.map Prod.fst).Nodup) : (tableRemove key t).lookup key = none := by
  induction t with
  | nil => rfl
  | cons kv rest ih =>
    obtain ⟨k, v⟩ := kv
    simp only [List.map_cons, List.nodup_cons] at h
    by_cases hk : k = key
    · rw [tableRemove, if_pos hk]
      exact lookup_eq_none_of_not_mem (hk ▸ h.1)
    · rw [tableRemove, if_neg hk, List.lookup_cons,
        beq_false_of_ne (fun hh => hk hh.symm)]
      exact ih h.2

end Ccnping

namespace Ccnpingserver

theorem dropWhile_isEmpty_eq_all (p : Char → Bool) (l : List Char) :
    (l.dropWhile p).isEmpty = l.all p := by
  induction l with
  | nil => rfl
  | cons c v ih =>
    by_cases h : p c <;> simp [List.dropWhile_cons, List.all_cons, h, ih]

theorem strtolTail_nil : strtolTail [] = [] := rfl

theorem strtolConsumesAll_iff (s : List Char) :
    strtolConsumesAll s = true ↔
      s = [] ∨ parsesEntirelyAsInteger s = true := by
  rcases hu : strtolTail s with _ | ⟨c, v⟩
  · unfold strtolConsumesAll parsesEntirelyAsInteger
    rw [hu]
    simp [List.isEmpty_iff]
  · have hs : s ≠ [] := by
      intro h
      rw [h, strtolTail_nil] at hu
      exact List.noConfusion hu
    unfold strtolConsumesAll parsesEntirelyAsInteger
    rw [hu]
    by_cases hc : Char.isDigit c
    · simp [List.takeWhile_cons, List.dropWhile_cons, hc, hs,
        dropWhile_isEmpty_eq_all]
    · simp [List.takeWhile_cons, hc, List.isEmpty_iff, hs]

end Ccnpingserver

/-! ## The claims -/

/-- C1 (counterexample): with `totalLimit` unset (the default `total = -1`),
no probes sent and an empty pending table, the claimed termination condition
"(totalLimit unset or sentCount >= totalLimit) and pendingTable empty"
holds, yet the run loop's guard keeps the loop running — the unset-limit run
never terminates on its own. -/
theorem C1_counterexample :
    loop_continues (-1) 0 0 = true ∧ spec_terminated (-1) 0 0 := by
  constructor
  · decide
  · exact ⟨Or.inl (by decide), rfl⟩

/-- C1 (amended): under a healthy transport, the client's run loop
terminates exactly when `totalLimit` is set (positive) AND
`sentCount >= totalLimit` AND the pending table is empty; moreover, once
emission is over (`sentCount >= totalLimit`) but probes are still pending,
the loop keeps running while no longer driving the emission scheduler, so
responses and timeouts are still serviced until every in-flight probe
resolves. -/
theorem C1_run_loop_termination (total sent : Int) (pendingCount : Nat) :
    (loop_continues total sent pendingCount = false ↔
      0 < total ∧ total ≤ sent ∧ pendingCount = 0) ∧
    (0 < total → total ≤ sent → 0 < pendingCount →
      loop_continues total sent pendingCount = true ∧
      schedule_runs total sent = false) := by
  constructor
  · simp only [loop_continues, Bool.or_eq_false_iff, decide_eq_false_iff_not]
    omega
  · intro h1 h2 h3
    constructor
    · simp only [loop_continues, Bool.or_eq_true, decide_eq_true_eq]
      omega
    · simp only [schedule_runs, Bool.or_eq_false_iff, decide_eq_false_iff_not]
      omega

/-- C1 (witness): with `total = 5`, `sent = 5` and one pending probe, the
loop still runs but the emission scheduler is no longer driven. -/
theorem C1_run_loop_termination_witness :
    loop_continues 5 5 1 = true ∧ schedule_runs 5 5 = false :=
  (C1_run_loop_termination 5 5 1).2 (by decide) (by decide) (by decide)

/-- C2 (counterexample): a request with the right component count whose
trailing component is the empty string is accepted by the server's
validator (with no digits consumed, `strtol` leaves its end pointer at the
start of the string, which for the empty component is the terminator), yet
the empty component does not parse as an integer — so the claimed "iff"
fails at `pfxComps = 2`, `reqComps = 3`, trailing component `""`. -/
theorem C2_counterexample :
    ¬ (ping_interest_valid 2 3 [] = true ↔
        (3 = 2 + 1 ∧ parsesEntirelyAsInteger [] = true)) := by
  decide

/-- C2 (amended): the server's validator accepts a request iff the request's
component count equals the prefix's component count plus one AND the
trailing component either is empty or parses entirely as an integer (no
trailing non-numeric characters after the numeric prefix).  In particular a
trailing component `"42"` is accepted while `"42abc"` or a
`prefixComponents+2`-component name is rejected. -/
theorem C2_validator_shape (pfxComps reqComps : Nat) (lastComp : List Char) :
    ping_interest_valid pfxComps reqComps lastComp = true ↔
      (reqComps = pfxComps + 1 ∧
        (lastComp = [] ∨ parsesEntirelyAsInteger lastComp = true)) := by
  unfold ping_interest_valid
  by_cases h : reqComps = pfxComps + 1
  · simp [h, strtolConsumesAll_iff]
  · simp [h]

/-- C7 (counterexample): on a valid request (`pfxComps = 2`, `reqComps = 3`,
trailing component `"42"`) whose `ccn_put` hand-off fails (`putRes = -1`),
the server still increments `respondedCount` — so "increments
respondedCount exactly when the response is successfully handed off" fails. -/
theorem C7_counterexample :
    ¬ ((incoming_interest 0 2 3 ['4', '2'] (-1)).1 = 0 + 1 ↔
        (ping_interest_valid 2 3 ['4', '2'] = true ∧ (0 : Int) ≤ -1)) := by
  decide

/-- C7 (amended): the server's interest handler increments `respondedCount`
exactly when the request passes validation — regardless of whether the
transport hand-off succeeds — and signals "request consumed" exactly when
the request is valid AND the hand-off (`ccn_put`) succeeds; on validation
failure it signals "not handled" (`CCN_UPCALL_RESULT_OK`) with the counter
unchanged. -/
theorem C7_incoming_interest_behavior (count : Int) (pfxComps reqComps : Nat)
    (lastComp : List Char) (putRes : Int) :
    ((incoming_interest count pfxComps reqComps lastComp putRes).1 =
      if ping_interest_valid pfxComps reqComps lastComp then count + 1 else count) ∧
    ((incoming_interest count pfxComps reqComps lastComp putRes).2 =
        UpcallRes.interestConsumed ↔
      (ping_interest_valid pfxComps reqComps lastComp = true ∧ 0 ≤ putRes)) := by
  unfold incoming_interest
  by_cases h : ping_interest_valid pfxComps reqComps lastComp <;>
    by_cases hp : (0 : Int) ≤ putRes <;>
      simp [h, hp]

/-- C3: an actual probe emission (the configured total not yet reached)
always inserts a pending entry keyed by the probe's name with
`sentAt = now` and increments both `client.sent` and `stats.sent`; the
resulting client state and statistics are completely independent of the
transport result `ccn_express_interest` returned, and a failing send only
adds a log line — it is never treated as "never sent". -/
theorem C3_emission_always_tracked (total : Int) (interval : ℚ)
    (now rand sendRes sendRes' : Int) (c : ClientState) (sta : Stats)
    (h : ¬ (0 ≤ total ∧ total ≤ c.sent)) :
    ((do_ping total interval now rand sendRes c sta).1.pending.lookup
        (toString (if c.number < 0 then rand else c.number)) =
      some ⟨if c.number < 0 then rand else c.number, now⟩) ∧
    (do_ping total interval now rand sendRes c sta).1.sent = c.sent + 1 ∧
    (do_ping total interval now rand sendRes c sta).2.1.sent = sta.sent + 1 ∧
    ((do_ping total interval now rand sendRes c sta).1 =
        (do_ping total interval now rand sendRes' c sta).1 ∧
      (do_ping total interval now rand sendRes c sta).2.1 =
        (do_ping total interval now rand sendRes' c sta).2.1) ∧
    (sendRes < 0 → (do_ping total interval now rand sendRes c sta).2.2.1 =
      [LogEvent.sendFailLog (if c.number < 0 then rand else c.number)]) := by
  refine ⟨?_, ?_, ?_, ⟨?_, ?_⟩, ?_⟩
  · simp only [do_ping, if_neg h]
    simp [List.lookup_cons]
  · simp only [do_ping, if_neg h]
  · simp only [do_ping, if_neg h]
  · simp only [do_ping, if_neg h]
  · simp only [do_ping, if_neg h]
  · intro hneg
    simp only [do_ping, if_neg h, if_pos hneg]

/-- C3 (witness): a concrete failing emission (`sendRes = -1`) against an
unbounded session from sequence number 0. -/
theorem C3_emission_always_tracked_witness :
    ((do_ping (-1) 1 7 3 (-1) (init_client 0) init_stats).1.pending.lookup
        (toString (if (init_client 0).number < 0 then (3 : Int) else (init_client 0).number)) =
      some ⟨if (init_client 0).number < 0 then (3 : Int) else (init_client 0).number, 7⟩) ∧
    (do_ping (-1) 1 7 3 (-1) (init_client 0) init_stats).1.sent = (init_client 0).sent + 1 ∧
    (do_ping (-1) 1 7 3 (-1) (init_client 0) init_stats).2.1.sent = init_stats.sent + 1 ∧
    ((do_ping (-1) 1 7 3 (-1) (init_client 0) init_stats).1 =
        (do_ping (-1) 1 7 3 0 (init_client 0) init_stats).1 ∧
      (do_ping (-1) 1 7 3 (-1) (init_client 0) init_stats).2.1 =
        (do_ping (-1) 1 7 3 0 (init_client 0) init_stats).2.1) ∧
    ((-1 : Int) < 0 → (do_ping (-1) 1 7 3 (-1) (init_client 0) init_stats).2.2.1 =
      [LogEvent.sendFailLog (if (init_client 0).number < 0 then (3 : Int) else (init_client 0).number)]) :=
  C3_emission_always_tracked (-1) 1 7 3 (-1) 0 (init_client 0) init_stats (by decide)

/-- C5: handling a timeout removes exactly the timed-out probe's entry from
the pending table (under the hash table's key uniqueness the key is gone
afterwards) and emits a log line, while leaving the statistics record — in
particular `received`, `min`, `max`, `tsum` and `tsum2` — and the client
counters untouched: a timed-out probe counts only toward `sent`. -/
theorem C5_timeout_is_pure_removal (key : String) (c c' : ClientState)
    (sta sta' : Stats) (logs : List LogEvent)
    (h : handle_timeout key c sta = some (c', sta', logs)) :
    sta' = sta ∧ c'.sent = c.sent ∧ c'.received = c.received ∧
    c'.number = c.number ∧
    c'.pending.length + 1 = c.pending.length ∧
    ((c.pending.map Prod.fst).Nodup → c'.pending.lookup key = none) ∧
    logs ≠ [] := by
  unfold handle_timeout at h
  rcases hl : c.pending.lookup key with _ | entry
  · rw [hl] at h
    exact absurd h (by simp)
  · rw [hl] at h
    simp only [Option.some.injEq, Prod.mk.injEq] at h
    obtain ⟨h1, h2, h3⟩ := h
    subst h1
    subst h2
    subst h3
    refine ⟨rfl, rfl, rfl, rfl, tableRemove_length hl,
      fun hn => tableRemove_lookup_none hn, by simp⟩

/-- C5 (witness): a concrete timeout for probe number 0 of a session with
one in-flight probe. -/
theorem C5_timeout_is_pure_removal_witness :
    init_stats = init_stats ∧
    (⟨1, 0, -1, []⟩ : ClientState).sent = (⟨1, 0, -1, [("0", ⟨0, 2⟩)]⟩ : ClientState).sent ∧
    (⟨1, 0, -1, []⟩ : ClientState).received = (⟨1, 0, -1, [("0", ⟨0, 2⟩)]⟩ : ClientState).received ∧
    (⟨1, 0, -1, []⟩ : ClientState).number = (⟨1, 0, -1, [("0", ⟨0, 2⟩)]⟩ : ClientState).number ∧
    (⟨1, 0, -1, []⟩ : ClientState).pending.length + 1 =
      (⟨1, 0, -1, [("0", ⟨0, 2⟩)]⟩ : ClientState).pending.length ∧
    (((⟨1, 0, -1, [("0", ⟨0, 2⟩)]⟩ : ClientState).pending.map Prod.fst).Nodup →
      (⟨1, 0, -1, []⟩ : ClientState).pending.lookup "0" = none) ∧
    ([LogEvent.timeoutLog 0] : List LogEvent) ≠ [] :=
  C5_timeout_is_pure_removal "0" ⟨1, 0, -1, [("0", ⟨0, 2⟩)]⟩ ⟨1, 0, -1, []⟩
    init_stats init_stats [LogEvent.timeoutLog 0] (by decide)

/-- Every reachable state of a run satisfies the strengthened session
invariant. -/
theorem reachable_sessionInv {total : Int} {interval : ℚ} {n0 : Int}
    {c : ClientState} {sta : Stats} (h : Reachable total interval n0 c sta) :
    sessionInv c sta := by
  induction h with
  | init => simp [sessionInv, init_client, init_stats]
  | @emit c sta now rand sendRes _ ih =>
    obtain ⟨h1, h2, h3⟩ := ih
    by_cases hg : 0 ≤ total ∧ total ≤ c.sent
    · simp only [do_ping, if_pos hg]
      exact ⟨h1, h2, h3⟩
    · simp only [sessionInv, do_ping, if_neg hg, List.length_cons]
      refine ⟨by simp [h1], by simp [h2], ?_⟩
      push_cast
      omega
  | @content c sta c' sta' logs key now _ hc ih =>
    obtain ⟨h1, h2, h3⟩ := ih
    unfold handle_content at hc
    rcases hl : c.pending.lookup key with _ | entry
    · rw [hl] at hc
      exact absurd hc (by simp)
    · rw [hl] at hc
      simp only [Option.some.injEq, Prod.mk.injEq] at hc
      obtain ⟨hcc, hcs, -⟩ := hc
      have hlen := tableRemove_length hl
      subst hcc
      subst hcs
      refine ⟨by simp [h1], by simp [h2], ?_⟩
      show c.received + 1 + ((tableRemove key c.pending).length : Int) ≤ c.sent
      omega
  | @timeout c sta c' sta' logs key _ ht ih =>
    obtain ⟨h1, h2, h3⟩ := ih
    unfold handle_timeout at ht
    rcases hl : c.pending.lookup key with _ | entry
    · rw [hl] at ht
      exact absurd ht (by simp)
    · rw [hl] at ht
      simp only [Option.some.injEq, Prod.mk.injEq] at ht
      obtain ⟨hcc, hcs, -⟩ := ht
      have hlen := tableRemove_length hl
      subst hcc
      subst hcs
      refine ⟨h1, h2, ?_⟩
      show c.received + ((tableRemove key c.pending).length : Int) ≤ c.sent
      omega

/-- C4: in every state reachable in a run — across probe emissions,
response handling and timeout handling — the process-wide `stats.sent`
equals the session's `sentCount` and `stats.received ≤ stats.sent`. -/
theorem C4_counter_invariants (total : Int) (interval : ℚ) (n0 : Int)
    (c : ClientState) (sta : Stats) (h : Reachable total interval n0 c sta) :
    sta.sent = c.sent ∧ sta.received ≤ sta.sent := by
  obtain ⟨h1, h2, h3⟩ := reachable_sessionInv h
  have hnn : (0 : Int) ≤ (c.pending.length : Int) := Int.natCast_nonneg _
  exact ⟨h1, by omega⟩

/-- C4 (witness): the invariant instantiated at the state after the first
emission of an unbounded random-mode run. -/
theorem C4_counter_invariants_witness :
    (do_ping (-1) 1 0 5 0 (init_client (-1)) init_stats).2.1.sent =
      (do_ping (-1) 1 0 5 0 (init_client (-1)) init_stats).1.sent ∧
    (do_ping (-1) 1 0 5 0 (init_client (-1)) init_stats).2.1.received ≤
      (do_ping (-1) 1 0 5 0 (init_client (-1)) init_stats).2.1.sent :=
  C4_counter_invariants (-1) 1 (-1) _ _ (Reachable.emit 0 5 0 Reachable.init)

/-- Peeling one step off a reversed shifted range: the numbers
`m .. m+k` listed newest-first are the numbers `m+1 .. m+k` newest-first
followed by `m`. -/
theorem range_reverse_map_shift (m : Int) (k : Nat) :
    (List.range (k + 1)).reverse.map (fun i : Nat => m + (i : Int)) =
      ((List.range k).reverse.map (fun i : Nat => m + 1 + (i : Int))) ++ [m] := by
  rw [List.range_succ_eq_map]
  rw [List.reverse_cons]
  rw [List.map_append]
  rw [List.map_reverse, List.map_reverse, List.map_map]
  refine congrArg₂ _ ?_ (by simp)
  refine congrArg _ ?_
  apply List.map_congr_left
  intro i _
  simp only [Function.comp]
  push_cast
  ring

/-- In sequential mode (`0 ≤ c.number`), a run of emissions that stays
within the configured total stacks onto the pending table exactly the
numbers `c.number, c.number+1, ...` (newest first), post-incrementing the
counter and the sent count once per probe. -/
theorem run_pings_sequential (total : Int) (interval : ℚ) (N : Nat) :
    ∀ (c : ClientState) (sta : Stats), 0 ≤ c.number →
      (total < 0 ∨ c.sent + N ≤ total) →
      (run_pings total interval N c sta).1.pending.map (fun kv => kv.2.number) =
        ((List.range N).reverse.map (fun i : Nat => c.number + (i : Int))) ++
          c.pending.map (fun kv => kv.2.number) ∧
      (run_pings total interval N c sta).1.number = c.number + N ∧
      (run_pings total interval N c sta).1.sent = c.sent + N := by
  induction N with
  | zero =>
    intro c sta _ _
    simp [run_pings]
  | succ k ih =>
    intro c sta hn htot
    have hg : ¬ (0 ≤ total ∧ total ≤ c.sent) := by
      rcases htot with h | h
      · omega
      · omega
    have hnum : ¬ c.number < 0 := by omega
    have hstep1 : (do_ping total interval 0 0 0 c sta).1 =
        { sent := c.sent + 1, received := c.received, number := c.number + 1,
          pending := (toString c.number, ⟨c.number, 0⟩) :: c.pending } := by
      simp only [do_ping, if_neg hg, if_neg hnum]
    have hstep2 : (do_ping total interval 0 0 0 c sta).2.1 =
        { sta with sent := sta.sent + 1 } := by
      simp only [do_ping, if_neg hg]
    have hrun : run_pings total interval (k + 1) c sta =
        run_pings total interval k (do_ping total interval 0 0 0 c sta).1
          (do_ping total interval 0 0 0 c sta).2.1 := rfl
    rw [hrun, hstep1, hstep2]
    obtain ⟨ihp, ihn, ihs⟩ := ih
      { sent := c.sent + 1, received := c.received, number := c.number + 1,
        pending := (toString c.number, ⟨c.number, 0⟩) :: c.pending }
      { sta with sent := sta.sent + 1 }
      (by show (0 : Int) ≤ c.number + 1
          omega)
      (by show total < 0 ∨ c.sent + 1 + (k : Int) ≤ total
          rcases htot with h | h
          · exact Or.inl h
          · right
            push_cast at h
            omega)
    refine ⟨?_, ?_, ?_⟩
    · rw [ihp, range_reverse_map_shift]
      simp
    · rw [ihn]
      show c.number + 1 + (k : Int) = c.number + ((k + 1 : Nat) : Int)
      push_cast
      ring
    · rw [ihs]
      show c.sent + 1 + (k : Int) = c.sent + ((k + 1 : Nat) : Int)
      push_cast
      ring

/-- C6: in sequential numbering mode with operator-supplied start value
`n0 ≥ 0`, a run of `N` scheduled emissions (within the configured total)
uses exactly the sequence numbers `n0, n0+1, ..., n0+N-1`, in emission
order, each exactly once — the internal counter is post-incremented per
probe. -/
theorem C6_sequential_numbering (total n0 : Int) (interval : ℚ) (N : Nat)
    (h0 : 0 ≤ n0) (htot : total < 0 ∨ (N : Int) ≤ total) :
    ((run_pings total interval N (init_client n0) init_stats).1.pending.map
        (fun kv => kv.2.number)).reverse =
      (List.range N).map (fun i : Nat => n0 + (i : Int)) := by
  obtain ⟨hp, -, -⟩ :=
    run_pings_sequential total interval N (init_client n0) init_stats h0
      (by show total < 0 ∨ (0 : Int) + (N : Int) ≤ total
          simpa using htot)
  rw [hp]
  show (((List.range N).reverse.map (fun i : Nat => n0 + (i : Int))) ++
      ([] : List (String × PingEntry)).map (fun kv => kv.2.number)).reverse =
    (List.range N).map (fun i : Nat => n0 + (i : Int))
  simp [List.map_reverse]

/-- C6 (witness): three sequential probes starting at 5 use exactly the
numbers 5, 6, 7. -/
theorem C6_sequential_numbering_witness :
    ((run_pings (-1) 1 3 (init_client 5) init_stats).1.pending.map
        (fun kv => kv.2.number)).reverse =
      (List.range 3).map (fun i : Nat => (5 : Int) + (i : Int)) :=
  C6_sequential_numbering (-1) 5 1 3 (by decide) (Or.inl (by decide))

/-- Response handling keeps `min` unchanged whenever the sample does not
beat the current minimum (the update is the strict comparison
`if (rtt < sta.min) sta.min = rtt`). -/
theorem handle_content_min_keep {key : String} {now : Int} {c : ClientState}
    {sta : Stats} {entry : PingEntry} (hl : c.pending.lookup key = some entry)
    (hge : ¬ rttMs now entry.sendTime < sta.min) :
    ((handle_content key now c sta).map fun r => r.2.1.min) = some sta.min := by
  unfold handle_content
  rw [hl]
  simp [if_neg hge]

/-- C8 (counterexample): `min` is initialized to `INT_MAX` = 2147483647,
not to the largest representable value of its `double` type, so a first
response whose RTT is 2147483648 ms (a perfectly representable double)
does not lower `min`: processing it from the initial statistics leaves
`min` at 2147483647, which differs from the sample's RTT. -/
theorem C8_counterexample :
    ((handle_content "0" 2147483648000 ⟨1, 0, -1, [("0", ⟨0, 0⟩)]⟩
        init_stats).map fun r => r.2.1.min) = some init_stats.min ∧
    rttMs 2147483648000 0 ≠ init_stats.min := by
  constructor
  · exact @handle_content_min_keep "0" 2147483648000
      ⟨1, 0, -1, [("0", ⟨0, 0⟩)]⟩ init_stats ⟨0, 0⟩
      (by decide) (by norm_num [rttMs, init_stats])
  · norm_num [rttMs, init_stats]

/-- C8 (amended): `min` is initialized to `INT_MAX` = 2147483647, so
processing a first received RTT sample from the initial statistics lowers
`min` to exactly that sample whenever the sample is below 2147483647 ms —
which holds for every realistic RTT. -/
theorem C8_min_initialization (c : ClientState) (key : String) (now : Int)
    (entry : PingEntry) (hl : c.pending.lookup key = some entry)
    (hlt : rttMs now entry.sendTime < init_stats.min) :
    init_stats.min = 2147483647 ∧
    ((handle_content key now c init_stats).map fun r => r.2.1.min) =
      some (rttMs now entry.sendTime) := by
  refine ⟨rfl, ?_⟩
  unfold handle_content
  rw [hl]
  simp [if_pos hlt]

/-- C8 (witness): a first response with RTT 5 ms lowers `min` from
2147483647 to 5. -/
theorem C8_min_initialization_witness :
    init_stats.min = 2147483647 ∧
    ((handle_content "0" 5000 ⟨1, 0, -1, [("0", ⟨0, 0⟩)]⟩ init_stats).map
        fun r => r.2.1.min) = some (rttMs 5000 0) :=
  C8_min_initialization ⟨1, 0, -1, [("0", ⟨0, 0⟩)]⟩ "0" 5000 ⟨0, 0⟩
    (by decide) (by norm_num [rttMs, init_stats])

/-- C9 (counterexample): the header the code prints reads `ccnping`, not
`ping`: at prefix `ccnx:/test` the report's first line is
`--- ccnx:/test ccnping statistics ---`, which is not the claimed
`--- ccnx:/test ping statistics ---`. -/
theorem C9_counterexample :
    (((print_statistics id ⟨3, 0, 2147483647, 0, 0, 0⟩ "ccnx:/test" 10).map
        (renderLine fun _ _ => "100.0")).head? =
      some "--- ccnx:/test ccnping statistics ---") ∧
    "--- ccnx:/test ccnping statistics ---" ≠ spec_header_line "ccnx:/test" := by
  constructor
  · rfl
  · decide

/-- C9 (amended): whenever at least one probe was sent, the final report
begins with the header line `--- <prefix> ccnping statistics ---` (the
code says `ccnping`, not `ping`) followed by the line `<sent> Interests
transmitted, <received> Data received, <loss>% packet loss, time
<elapsed> ms`, where `loss = (sent - received) * 100 / sent`. -/
theorem C9_report_shape (sqrtFn : ℚ → ℚ) (fmt : Nat → ℚ → String)
    (sta : Stats) (pfx : String) (timeMs : Int) (h : 0 < sta.sent) :
    ((print_statistics sqrtFn sta pfx timeMs).map (renderLine fmt)).take 2 =
      ["--- " ++ pfx ++ " ccnping statistics ---",
        spec_tx_line fmt sta.sent sta.received
          ((sta.sent - sta.received : Int) * 100 / (sta.sent : ℚ)) timeMs] := by
  simp [print_statistics, renderLine, spec_tx_line, h]

/-- C9 (witness): the first two report lines of a one-probe, zero-response
run, with the fixed-point formatter abstracted. -/
theorem C9_report_shape_witness :
    ((print_statistics id ⟨1, 0, 2147483647, 0, 0, 0⟩ "p" 2).map
        (renderLine fun _ _ => "100.0")).take 2 =
      ["--- " ++ "p" ++ " ccnping statistics ---",
        spec_tx_line (fun _ _ => "100.0") 1 0
          (((1 : Int) - (0 : Int) : Int) * 100 / ((1 : Int) : ℚ)) 2] :=
  C9_report_shape id (fun _ _ => "100.0") ⟨1, 0, 2147483647, 0, 0, 0⟩
    "p" 2 (by decide)

/-- C10: the transmitted/loss line — the only line whose computation
divides by `sent` — appears in the report iff `sent > 0`, and the rtt
summary line — the only one dividing by `received` — iff `received > 0`;
when no probe was ever sent (so, the received count being bounded by the
sent count, nothing was received either) the report is just the header
line.  Both divisions are computed only inside their guarded branches, so
neither ever runs with a zero divisor. -/
theorem C10_report_guards (sqrtFn : ℚ → ℚ) (sta : Stats) (pfx : String)
    (timeMs : Int) (h : sta.received ≤ sta.sent) :
    ((print_statistics sqrtFn sta pfx timeMs).any ReportLine.isTx = true ↔
      0 < sta.sent) ∧
    ((print_statistics sqrtFn sta pfx timeMs).any ReportLine.isRtt = true ↔
      0 < sta.received) ∧
    (sta.sent = 0 → print_statistics sqrtFn sta pfx timeMs =
      [ReportLine.header pfx]) := by
  by_cases hs : 0 < sta.sent <;> by_cases hr : 0 < sta.received <;>
    simp [print_statistics, ReportLine.isTx, ReportLine.isRtt, hs, hr] <;>
      omega

/-- C10 (witness): with nothing sent and nothing received, the report is
only the header line and contains neither guarded line. -/
theorem C10_report_guards_witness :
    ((print_statistics id init_stats "p" 0).any ReportLine.isTx = true ↔
      0 < init_stats.sent) ∧
    ((print_statistics id init_stats "p" 0).any ReportLine.isRtt = true ↔
      0 < init_stats.received) ∧
    (init_stats.sent = 0 → print_statistics id init_stats "p" 0 =
      [ReportLine.header "p"]) :=
  C10_report_guards id init_stats "p" 0 (by decide)
